import Mathlib

set_option maxRecDepth 10000

/-!
Shallow embedding of the response-parsing / tabularization pipeline of the
Mark-img-to-csv repository (`marksheet_agent.py`, `utils.py`).

Python dictionaries are modelled as association lists with Python's
insertion-order semantics (an update keeps the key's original position, a
fresh key is appended at the end).  Python values flowing through the
pipeline are modelled by `PyVal`.  Character classes (`\w`, `\s`) are
modelled over ASCII, which covers every input the claims exercise.
-/

namespace Marksheet

/-- Model of the Python values the pipeline manipulates (JSON-decodable
values plus strings).  JSON float literals are outside the model; none of
the code paths under verification produce or consume them. -/
inductive PyVal where
  | str : String → PyVal
  | int : Int → PyVal
  | bool : Bool → PyVal
  | none : PyVal
  | list : List PyVal → PyVal
  | dict : List (String × PyVal) → PyVal

/-- Keys of a modelled Python dict, in insertion order. -/
def dictKeys (d : List (String × PyVal)) : List String := d.map (·.1)

/-- Lookup `d[k]` returning the first (unique) binding. -/
def dictLookup (d : List (String × PyVal)) (k : String) : Option PyVal :=
  (d.find? (·.1 = k)).map (·.2)

/-- Membership test `k in d`. -/
def dictMem (d : List (String × PyVal)) (k : String) : Bool :=
  d.any (·.1 = k)

/-- Model of `d.get(k, default)`. -/
def dictGet (d : List (String × PyVal)) (k : String) (dflt : PyVal) : PyVal :=
  (dictLookup d k).getD dflt

/-- In-place value replacement at key `k` (position preserved). -/
def dictReplace (d : List (String × PyVal)) (k : String) (v : PyVal) :
    List (String × PyVal) :=
  d.map (fun p => if p.1 = k then (k, v) else p)

/-- Assignment `d[k] = v`: replace in place when the key exists (Python dicts keep the
original position of an updated key), append otherwise. -/
def dictSet (d : List (String × PyVal)) (k : String) (v : PyVal) :
    List (String × PyVal) :=
  if dictMem d k then dictReplace d k v
  else d ++ [(k, v)]

/-- How many columns named `k` the row carries. -/
def countKey (k : String) (d : List (String × PyVal)) : Nat :=
  (dictKeys d).count k

/-! ### Character classes (ASCII model of Python's `\w`, `\s`) -/

/-- Python regex `\w`: letters, digits and underscore (ASCII model). -/
def isWordChar (c : Char) : Bool := c.isAlphanum || c = '_'

/-- Python regex `\s`: space, tab, newline, carriage return, form feed,
vertical tab. -/
def isPySpace (c : Char) : Bool :=
  c = ' ' || c = '\t' || c = '\n' || c = '\r' || c = '\x0c' || c = '\x0b'

/-- Python `str.strip()` with no argument strips the same class. -/
def pyStrip (s : String) : String :=
  String.mk (((s.data.dropWhile isPySpace).reverse.dropWhile isPySpace).reverse)

/-! ### `utils.py` — `DataValidator` -/

/-- Regex `^\d+$` on a char list. -/
def matchesInt (l : List Char) : Bool := !l.isEmpty && l.all (·.isDigit)

/-- Regex `^\d+<sep>\d+$` (used with `/` for fractions and `.` for
decimals): a maximal digit run, the separator, then a digit run to the
end. -/
def matchesSep (sep : Char) (l : List Char) : Bool :=
  let d1 := l.takeWhile (·.isDigit)
  match l.dropWhile (·.isDigit) with
  | c :: rest => c = sep && !d1.isEmpty && !rest.isEmpty && rest.all (·.isDigit)
  | [] => false

/-- Model of `DataValidator.validate_marks` (utils.py lines 58-71): sentinel values
are rejected up front, then the stripped string is matched against the
three patterns. -/
def validate_marks (marks_str : String) : Bool :=
  if marks_str = "" || marks_str ∈ ["Not Available", "N/A", ""] then false
  else
    let t := (pyStrip marks_str).data
    matchesInt t || matchesSep '/' t || matchesSep '.' t

/-- First match of `re.findall(r'\d+(?:\.\d+)?', ...)`: the leftmost
maximal digit run, extended by `.` plus a digit run when one follows. -/
def firstNumber : List Char → Option (List Char)
  | [] => Option.none
  | c :: rest =>
    if c.isDigit then
      let ds := c :: rest.takeWhile (·.isDigit)
      match rest.dropWhile (·.isDigit) with
      | '.' :: r2 =>
        if r2.isEmpty || !(r2.headD ' ').isDigit then some ds
        else some (ds ++ '.' :: r2.takeWhile (·.isDigit))
      | _ => some ds
    else firstNumber rest

/-- Model of `DataValidator.clean_numeric_value` (utils.py lines 73-81). -/
def clean_numeric_value (value : String) : String :=
  if value = "" then "0"
  else
    match firstNumber value.data with
    | some n => String.mk n
    | Option.none => "0"

/-! ### `utils.py` — `CSVFormatter.clean_column_name` -/

/-- One pass of `re.sub(p+, rep, s)` style run collapsing: every maximal
run of characters satisfying `p` becomes the single character `rep`.
`inRun` records whether the previous character was part of such a run. -/
def collapseAux (p : Char → Bool) (rep : Char) : Bool → List Char → List Char
  | _, [] => []
  | inRun, c :: rest =>
    if p c then
      if inRun then collapseAux p rep true rest
      else rep :: collapseAux p rep true rest
    else c :: collapseAux p rep false rest

/-- Collapse maximal `p`-runs to a single `rep`. -/
def collapseRuns (p : Char → Bool) (rep : Char) (l : List Char) : List Char :=
  collapseAux p rep false l

/-- Python `str.strip('_')`. -/
def stripUnderscores (l : List Char) : List Char :=
  ((l.dropWhile (· = '_')).reverse.dropWhile (· = '_')).reverse

/-- Model of `CSVFormatter.clean_column_name` (utils.py lines 86-98):
`re.sub(r'[^\w\s]', '', s)`, then `re.sub(r'\s+', '_', ·)`, then
`re.sub(r'_+', '_', ·)`, then `strip('_')`, with the `"Unknown_Field"`
fallback for an empty result. -/
def clean_column_name (column_name : String) : String :=
  let step1 := column_name.data.filter (fun c => isWordChar c || isPySpace c)
  let step2 := collapseRuns isPySpace '_' step1
  let step3 := collapseRuns (· = '_') '_' step2
  let step4 := stripUnderscores step3
  if step4.isEmpty then "Unknown_Field" else String.mk step4

/-! ### Python exceptions -/

/-- The Python exceptions reachable in the embedded pipeline. -/
inductive PyErr where
  | valueError : String → PyErr
  | typeError : String → PyErr
  | jsonDecodeError : String → PyErr
  | attributeError : String → PyErr
deriving DecidableEq

/-- Message `str(e)` for the modelled exceptions. -/
def PyErr.msg : PyErr → String
  | .valueError m => m
  | .typeError m => m
  | .jsonDecodeError m => m
  | .attributeError m => m

/-! ### Regex search helpers -/

/-- Index of the first occurrence of `pat` as a contiguous sublist. -/
def findSubIdx (pat : List Char) : List Char → Option Nat
  | [] => if pat.isEmpty then some 0 else Option.none
  | c :: rest =>
    if pat.isPrefixOf (c :: rest) then some 0
    else (findSubIdx pat rest).map (· + 1)

/-- Python `sub in s` substring containment. -/
def containsSub (pat s : String) : Bool := (findSubIdx pat.data s.data).isSome

/-- Model of `re.search(r'```json\n(.*?)\n```', text, re.DOTALL)`: the leftmost
fence opener, with the non-greedy group ending at the earliest following
`\n```` ``` `. -/
def findJsonFence (text : String) : Option String :=
  let l := text.data
  let openPat := "```json\n".data
  match findSubIdx openPat l with
  | some i =>
    let after := l.drop (i + openPat.length)
    match findSubIdx "\n```".data after with
    | some j => some (String.mk (after.take j))
    | Option.none => Option.none
  | Option.none => Option.none

/-- Model of `re.search(r'\{.*\}', text, re.DOTALL)`: greedy span from the first
`{` to the last `}`, provided the latter comes strictly after. -/
def findBraceSpan (text : String) : Option String :=
  let l := text.data
  match l.findIdx? (· = '{'), l.reverse.findIdx? (· = '}') with
  | some i, some jr =>
    let j := l.length - 1 - jr
    if i < j then some (String.mk ((l.drop i).take (j - i + 1))) else Option.none
  | _, _ => Option.none

/-- Candidate JSON text: fenced block first, brace span as fallback
(marksheet_agent.py lines 146-156). -/
def candidateOf (text : String) : Option String :=
  match findJsonFence text with
  | some j => some j
  | Option.none => findBraceSpan text

/-! ### Model of `json.loads`

A fuel-indexed recursive-descent parser for the JSON fragment the
pipeline exchanges (strings, integers, booleans, null, arrays, objects;
float literals are rejected as outside the model).  Duplicate object keys
follow Python semantics: the later value wins, at the key's first
position. -/

/-- JSON whitespace accepted between tokens. -/
def skipWs (l : List Char) : List Char :=
  l.dropWhile (fun c => c = ' ' || c = '\t' || c = '\n' || c = '\r')

/-- Translation of a character escape `\\c` inside a JSON string. -/
def escChar (e : Char) : Option Char :=
  if e = 'n' then some '\n'
  else if e = 't' then some '\t'
  else if e = 'r' then some '\r'
  else if e = '"' then some '"'
  else if e = '\\' then some '\\'
  else if e = '/' then some '/'
  else if e = 'b' then some '\x08'
  else if e = 'f' then some '\x0c'
  else Option.none

/-- Parse the body of a JSON string literal (opening quote already
consumed); returns the decoded characters and the remaining input. -/
def parseStringLit : List Char → Option (List Char × List Char)
  | [] => Option.none
  | '"' :: rest => some ([], rest)
  | '\\' :: c :: rest =>
    match escChar c with
    | some e => (parseStringLit rest).map (fun p => (e :: p.1, p.2))
    | Option.none => Option.none
  | c :: rest => (parseStringLit rest).map (fun p => (c :: p.1, p.2))

/-- Digits to a natural number. -/
def digitsToNat (l : List Char) : Nat :=
  l.foldl (fun a c => a * 10 + (c.toNat - '0'.toNat)) 0

mutual

/-- Parse one JSON value at the head of the input. -/
def parseVal : Nat → List Char → Except String (PyVal × List Char)
  | 0, _ => .error "Maximum recursion depth exceeded"
  | fuel + 1, l =>
    match skipWs l with
    | [] => .error "Expecting value"
    | '"' :: rest =>
      match parseStringLit rest with
      | some p => .ok (.str (String.mk p.1), p.2)
      | Option.none => .error "Unterminated string"
    | '{' :: rest =>
      match skipWs rest with
      | '}' :: r => .ok (.dict [], r)
      | r => parseMembers fuel [] r
    | '[' :: rest =>
      match skipWs rest with
      | ']' :: r => .ok (.list [], r)
      | r => parseItems fuel [] r
    | c :: rest =>
      if "true".data.isPrefixOf (c :: rest) then
        .ok (.bool true, (c :: rest).drop 4)
      else if "false".data.isPrefixOf (c :: rest) then
        .ok (.bool false, (c :: rest).drop 5)
      else if "null".data.isPrefixOf (c :: rest) then
        .ok (.none, (c :: rest).drop 4)
      else if c = '-' || c.isDigit then
        let l2 := if c = '-' then rest else c :: rest
        let ds := l2.takeWhile (·.isDigit)
        if ds.isEmpty then .error "Expecting value"
        else
          match l2.dropWhile (·.isDigit) with
          | '.' :: _ => .error "float literals are outside this model"
          | 'e' :: _ => .error "float literals are outside this model"
          | 'E' :: _ => .error "float literals are outside this model"
          | r =>
            .ok (.int (if c = '-' then -(digitsToNat ds : Int) else digitsToNat ds), r)
      else .error "Expecting value"

/-- Parse the members of a JSON object (after `{`, first member onward). -/
def parseMembers : Nat → List (String × PyVal) → List Char →
    Except String (PyVal × List Char)
  | 0, _, _ => .error "Maximum recursion depth exceeded"
  | fuel + 1, acc, l =>
    match skipWs l with
    | '"' :: rest =>
      match parseStringLit rest with
      | some p =>
        match skipWs p.2 with
        | ':' :: r2 =>
          match parseVal fuel r2 with
          | .ok (v, r3) =>
            let acc2 := dictSet acc (String.mk p.1) v
            match skipWs r3 with
            | ',' :: r4 => parseMembers fuel acc2 r4
            | '}' :: r4 => .ok (.dict acc2, r4)
            | _ => .error "Expecting \x27,\x27 delimiter"
          | .error e => .error e
        | _ => .error "Expecting \x27:\x27 delimiter"
      | Option.none => .error "Unterminated string"
    | _ => .error "Expecting property name enclosed in double quotes"

/-- Parse the items of a JSON array (after `[`, first item onward). -/
def parseItems : Nat → List PyVal → List Char →
    Except String (PyVal × List Char)
  | 0, _, _ => .error "Maximum recursion depth exceeded"
  | fuel + 1, acc, l =>
    match parseVal fuel l with
    | .ok (v, r) =>
      match skipWs r with
      | ',' :: r2 => parseItems fuel (acc ++ [v]) r2
      | ']' :: r2 => .ok (.list (acc ++ [v]), r2)
      | _ => .error "Expecting \x27,\x27 delimiter"
    | .error e => .error e

end

/-- Model of `json.loads`: parse one value and require only whitespace to
follow. -/
def jsonLoads (s : String) : Except PyErr PyVal :=
  match parseVal (2 * s.data.length + 4) s.data with
  | .ok (v, rest) =>
    if (skipWs rest).isEmpty then .ok v else .error (.jsonDecodeError "Extra data")
  | .error m => .error (.jsonDecodeError m)

/-! ### `marksheet_agent.py` — `parse_extraction_result` -/

/-- Sentinel installed for missing fields. -/
def NA : PyVal := .str "Not Available"

/-- Required fields of the parsed record (marksheet_agent.py line 162). -/
def required_fields : List String := ["rrn", "sectionwise_marks", "total_marks"]

/-- One iteration of the defaulting loop (marksheet_agent.py lines
163-165): `if field not in parsed_data: parsed_data[field] = "Not
Available"`.  On a dict this tests key membership and appends; on a list,
`in` is element equality and the assignment raises `TypeError`; on a
string, `in` is substring containment and the assignment raises
`TypeError`; on any other value `in` itself raises `TypeError`.
`dictDefault` is the dict case: append the sentinel when the key is
missing. -/
def dictDefault (d : List (String × PyVal)) (k : String) : List (String × PyVal) :=
  if dictMem d k then d else d ++ [(k, NA)]

/-- One iteration of the defaulting loop on a dict value. -/
def defaultStep (v : PyVal) (k : String) : Except PyErr PyVal :=
  match v with
  | .dict d =>
    .ok (.dict (dictDefault d k))
  | .list l =>
    if l.any (fun x => match x with | .str s => s = k | _ => false) then .ok (.list l)
    else .error (.typeError "list indices must be integers or slices, not str")
  | .str s =>
    if containsSub k s then .ok (.str s)
    else .error (.typeError "\x27str\x27 object does not support item assignment")
  | _ => .error (.typeError "argument of type is not iterable")

/-- Defaulting loop over the three required fields. -/
def applyDefaults (v : PyVal) : Except PyErr PyVal :=
  required_fields.foldlM defaultStep v

/-- Record returned when JSON decoding fails (marksheet_agent.py lines
169-178). -/
def parseErrorRecord (msg raw : String) : PyVal :=
  .dict [("rrn", .str "Extraction Failed"),
         ("student_name", NA),
         ("sectionwise_marks", .list []),
         ("total_marks", NA),
         ("error", .str ("Failed to parse response: " ++ msg)),
         ("raw_response", .str raw)]

/-- Model of `MarksheetAgent.parse_extraction_result` (marksheet_agent.py
lines 143-178).  The `except` clause catches only `json.JSONDecodeError`,
so the `ValueError` raised when no candidate JSON text is found — and any
`TypeError` raised by the defaulting loop on a non-dict parse — propagate
to the caller (modelled as `.error`). -/
def parse_extraction_result (extracted_text : String) : Except PyErr PyVal :=
  match candidateOf extracted_text with
  | some json_str =>
    match jsonLoads json_str with
    | .ok parsed => applyDefaults parsed
    | .error e => .ok (parseErrorRecord e.msg extracted_text)
  | Option.none => .error (.valueError "No JSON found in response")

/-! ### `marksheet_agent.py` — `create_csv_data` -/

/-- Inline subject cleaning of `create_csv_data` (marksheet_agent.py line
207): `re.sub(r'[^\w\s]', '', subject_name).replace(' ', '_')` — note
this differs from `CSVFormatter.clean_column_name`: only the space
character is replaced, runs are not collapsed, and there is no fallback. -/
def cleanSubjectInline (subject_name : String) : String :=
  String.mk ((subject_name.data.filter
    (fun c => isWordChar c || isPySpace c)).map
    (fun c => if c = ' ' then '_' else c))

mutual

/-- Python `repr` of a modelled value (string escaping elided; used only
as the opaque `str(extracted_data)` diagnostic cell). -/
def pyRepr : PyVal → String
  | .str s => "\x27" ++ s ++ "\x27"
  | .int n => toString n
  | .bool b => if b then "True" else "False"
  | .none => "None"
  | .list l => "[" ++ pyReprItems l ++ "]"
  | .dict d => "\x7b" ++ pyReprPairs d ++ "\x7d"

/-- Comma-separated `repr` of list items. -/
def pyReprItems : List PyVal → String
  | [] => ""
  | [x] => pyRepr x
  | x :: y :: xs => pyRepr x ++ ", " ++ pyReprItems (y :: xs)

/-- Comma-separated `repr` of dict entries. -/
def pyReprPairs : List (String × PyVal) → String
  | [] => ""
  | [p] => "\x27" ++ p.1 ++ "\x27: " ++ pyRepr p.2
  | p :: q :: ps => "\x27" ++ p.1 ++ "\x27: " ++ pyRepr p.2 ++ ", " ++ pyReprPairs (q :: ps)

end

/-- The nine fixed base columns (marksheet_agent.py lines 184-194), each
taken from the record with the `"Not Available"` default. -/
def baseRow (d : List (String × PyVal)) : List (String × PyVal) :=
  [("RRN", dictGet d "rrn" NA),
   ("Student_Name", dictGet d "student_name" NA),
   ("Class", dictGet d "class" NA),
   ("School", dictGet d "school" NA),
   ("Academic_Year", dictGet d "academic_year" NA),
   ("Total_Marks", dictGet d "total_marks" NA),
   ("Total_Max_Marks", dictGet d "total_max_marks" NA),
   ("Percentage", dictGet d "percentage" NA),
   ("Grade", dictGet d "grade" NA)]

/-- Loop over `sectionwise_marks` (marksheet_agent.py lines 200-210):
non-dict entries are skipped; a non-string subject makes `re.sub` raise
`TypeError`; otherwise two columns are assigned into the row dict. -/
def sectionLoop (acc : List (String × PyVal)) (i : Nat) :
    List PyVal → Except PyErr (List (String × PyVal))
  | [] => .ok acc
  | sd :: rest =>
    match sd with
    | .dict sdd =>
      match dictGet sdd "subject" (.str ("Subject_" ++ toString (i + 1))) with
      | .str subj =>
        let stem := cleanSubjectInline subj
        let marks := dictGet sdd "marks_obtained" (.str "N/A")
        let maxv := dictGet sdd "max_marks" (.str "N/A")
        sectionLoop (dictSet (dictSet acc (stem ++ "_Marks") marks)
          (stem ++ "_Max") maxv) (i + 1) rest
      | _ => .error (.typeError "expected string or bytes-like object")
    | _ => sectionLoop acc (i + 1) rest

/-- Body of the `try` block of `create_csv_data` (marksheet_agent.py
lines 182-214).  A non-dict argument makes `extracted_data.get` raise
`AttributeError`. -/
def createCsvBody : PyVal → Except PyErr (List (String × PyVal))
  | .dict d =>
    match dictGet d "sectionwise_marks" (.list []) with
    | .list l => if l.isEmpty then .ok (baseRow d) else sectionLoop (baseRow d) 0 l
    | _ => .ok (baseRow d)
  | _ => .error (.attributeError "object has no attribute \x27get\x27")

/-- The error row emitted by the `except` clause (marksheet_agent.py
lines 216-223). -/
def errorRow (e : PyErr) (extracted_data : PyVal) : List (String × PyVal) :=
  [("RRN", .str "Error"),
   ("Error_Message", .str e.msg),
   ("Raw_Data", .str (pyRepr extracted_data))]

/-- Model of `MarksheetAgent.create_csv_data` (marksheet_agent.py lines
180-223): the single-row DataFrame is represented by its ordered
column-to-cell mapping. -/
def create_csv_data (extracted_data : PyVal) : List (String × PyVal) :=
  match createCsvBody extracted_data with
  | .ok row => row
  | .error e => errorRow e extracted_data

/-! ### `marksheet_agent.py` — `save_to_csv`, `utils.py` — `FileManager` -/

/-- Output directory (config.py line 23). -/
def OUTPUT_DIR : String := "output"

/-- Minimal rendering of the one-row DataFrame as CSV text (header line
then the data line), standing in for `pandas.DataFrame.to_csv`. -/
def dfToCsv (row : List (String × PyVal)) : String :=
  String.intercalate "," (dictKeys row) ++ "\n" ++
    String.intercalate "," (row.map (fun p =>
      match p.2 with
      | .str s => s
      | v => pyRepr v)) ++ "\n"

/-- A file system snapshot: existing paths mapped to their contents. -/
abbrev FileSys := List (String × String)

/-- Contents at a path, when the file exists. -/
def fsRead (fs : FileSys) (path : String) : Option String :=
  (fs.find? (·.1 = path)).map (·.2)

/-- Writing a file: replaces the contents at an existing path, creates
the file otherwise. -/
def fsWrite (fs : FileSys) (path content : String) : FileSys :=
  if fs.any (·.1 = path) then
    fs.map (fun p => if p.1 = path then (path, content) else p)
  else fs ++ [(path, content)]

/-- Model of `MarksheetAgent.save_to_csv` (marksheet_agent.py lines
225-238): build the default timestamped name when none is supplied, then
write `OUTPUT_DIR/filename` unconditionally.  `now` stands for
`datetime.datetime.now().strftime(...)`.  Returns the path written and
the updated file system. -/
def save_to_csv (fs : FileSys) (row : List (String × PyVal))
    (filename : Option String) (now : String) : String × FileSys :=
  let fn := filename.getD ("marksheet_data_" ++ now ++ ".csv")
  let filepath := OUTPUT_DIR ++ "/" ++ fn
  (filepath, fsWrite fs filepath (dfToCsv row))

/-- Model of `os.path.splitext` for a bare file name (no separators):
split at the last dot, unless every character before it is a dot. -/
def splitext (p : String) : String × String :=
  match (p.data.reverse.findIdx? (· = '.')) with
  | some ir =>
    let i := p.data.length - 1 - ir
    if (p.data.take i).any (· ≠ '.') then
      (String.mk (p.data.take i), String.mk (p.data.drop i))
    else (p, "")
  | Option.none => (p, "")

/-- Loop of `FileManager.get_unique_filename` (utils.py lines 155-163),
fuel-indexed: while `directory/filename` exists, move to
`name_<counter><ext>`. `paths` is the set of existing paths. -/
def uniqueLoop (paths : List String) (directory name ext : String) :
    Nat → Nat → String → Option String
  | 0, _, _ => Option.none
  | fuel + 1, counter, filename =>
    if (directory ++ "/" ++ filename) ∈ paths then
      uniqueLoop paths directory name ext fuel (counter + 1)
        (name ++ "_" ++ toString counter ++ ext)
    else some filename

/-- Model of `FileManager.get_unique_filename` (utils.py lines 152-163).
The `while` loop is given fuel; `Option.none` means it was still
searching when the fuel ran out. -/
def get_unique_filename (paths : List String) (directory base_filename : String)
    (fuel : Nat) : Option String :=
  let ne := splitext base_filename
  uniqueLoop paths directory ne.1 ne.2 fuel 1 base_filename

/-! ### The spec-level record shape -/

/-- SectionMark, as in the spec's data model. -/
structure SectionMark where
  subject : String
  marks_obtained : String
  max_marks : String

/-- The Python dict a SectionMark appears as inside `sectionwise_marks`. -/
def SectionMark.toPy (s : SectionMark) : PyVal :=
  .dict [("subject", .str s.subject),
         ("marks_obtained", .str s.marks_obtained),
         ("max_marks", .str s.max_marks)]

/-- Column-name stem the flattener derives for a section. -/
def SectionMark.stem (s : SectionMark) : String := cleanSubjectInline s.subject

/-- Entries of a MarksheetRecord with all nine base fields present as
strings plus its section list, in the JSON shape the prompt requests. -/
def mkRecordDict (rrn nm cls sch yr tot totmax pct grd : String)
    (sections : List SectionMark) : List (String × PyVal) :=
  [("rrn", .str rrn),
   ("student_name", .str nm),
   ("class", .str cls),
   ("school", .str sch),
   ("academic_year", .str yr),
   ("sectionwise_marks", .list (sections.map SectionMark.toPy)),
   ("total_marks", .str tot),
   ("total_max_marks", .str totmax),
   ("percentage", .str pct),
   ("grade", .str grd)]

/-- The record above as a Python value. -/
def mkRecord (rrn nm cls sch yr tot totmax pct grd : String)
    (sections : List SectionMark) : PyVal :=
  .dict (mkRecordDict rrn nm cls sch yr tot totmax pct grd sections)

/-- The nine fixed column names, in emission order. -/
def baseNames : List String :=
  ["RRN", "Student_Name", "Class", "School", "Academic_Year",
   "Total_Marks", "Total_Max_Marks", "Percentage", "Grade"]

/-- Test for the list constructor (Python `isinstance(·, list)`). -/
def PyVal.isList : PyVal → Bool
  | .list _ => true
  | _ => false

/-! ### Well-formedness of cleaned column names -/

/-- No two adjacent characters both satisfy `p`. -/
def noAdj (p : Char → Bool) : List Char → Bool
  | a :: b :: rest => !(p a && p b) && noAdj p (b :: rest)
  | _ => true

/-- First character, when present, is not an underscore. -/
def headNotUnderscore (l : List Char) : Bool :=
  match l.head? with
  | some c => !(c = '_')
  | Option.none => true

/-- Well-formedness of a cleaned column name: nonempty, word characters
only, no doubled underscore, and no leading or trailing underscore. -/
def isCleanName (s : String) : Bool :=
  !s.data.isEmpty && s.data.all isWordChar && noAdj (fun c => c = '_') s.data &&
    headNotUnderscore s.data && headNotUnderscore s.data.reverse

/-! ### Concrete inputs used by the claims -/

/-- The end-to-end raw model output of the spec's scenario. -/
def c5Input : String :=
  "Here is the data:\n```json\n\x7b\"rrn\":\"R123\",\"sectionwise_marks\":[\x7b\"subject\":\"Math\",\"marks_obtained\":\"40\",\"max_marks\":\"50\"\x7d],\"total_marks\":\"40\"\x7d\n```"

/-- The record the parser produces for `c5Input`. -/
def c5Record : List (String × PyVal) :=
  [("rrn", .str "R123"),
   ("sectionwise_marks", .list [.dict [("subject", .str "Math"),
                                       ("marks_obtained", .str "40"),
                                       ("max_marks", .str "50")]]),
   ("total_marks", .str "40")]

/-- The row the flattener produces for `c5Record`. -/
def c5Row : List (String × PyVal) :=
  [("RRN", .str "R123"), ("Student_Name", NA), ("Class", NA), ("School", NA),
   ("Academic_Year", NA), ("Total_Marks", .str "40"), ("Total_Max_Marks", NA),
   ("Percentage", NA), ("Grade", NA),
   ("Math_Marks", .str "40"), ("Math_Max", .str "50")]

/-- Two sections carrying the same subject name. -/
def dupSections : List PyVal :=
  [.dict [("subject", .str "Math"), ("marks_obtained", .str "40"), ("max_marks", .str "50")],
   .dict [("subject", .str "Math"), ("marks_obtained", .str "30"), ("max_marks", .str "50")]]

/-- A record whose two sections share the stem `Math`. -/
def dupRecord : List (String × PyVal) := [("sectionwise_marks", .list dupSections)]

/-- A record with a non-string subject, which makes the flattener's
`re.sub` raise `TypeError` internally. -/
def badSectionRecord : PyVal :=
  .dict [("sectionwise_marks", .list [.dict [("subject", .int 5)]])]

/-- A file system holding one prior CSV. -/
def fs0 : FileSys := [("output/data.csv", "old contents")]

/-- A one-column row to persist. -/
def row0 : List (String × PyVal) := [("RRN", .str "R1")]

/-! ### Lemmas -/

/-! ### Lemmas about the dict model -/

theorem dictKeys_nil : dictKeys [] = [] := rfl

theorem dictKeys_cons (p : String × PyVal) (d : List (String × PyVal)) :
    dictKeys (p :: d) = p.1 :: dictKeys d := rfl

theorem dictMem_cons (p : String × PyVal) (d : List (String × PyVal)) (k : String) :
    dictMem (p :: d) k = (decide (p.1 = k) || dictMem d k) := rfl

theorem dictMem_iff {d : List (String × PyVal)} {k : String} :
    dictMem d k = true ↔ k ∈ dictKeys d := by
  induction d with
  | nil => simp [dictMem, dictKeys]
  | cons p rest ih =>
    rw [dictMem_cons, dictKeys_cons]
    simp only [Bool.or_eq_true, decide_eq_true_eq, ih, List.mem_cons]
    constructor
    · rintro (h | h)
      · exact Or.inl h.symm
      · exact Or.inr h
    · rintro (h | h)
      · exact Or.inl h.symm
      · exact Or.inr h

theorem dictMem_eq_false_iff {d : List (String × PyVal)} {k : String} :
    dictMem d k = false ↔ k ∉ dictKeys d := by
  rw [← dictMem_iff]
  cases dictMem d k <;> simp

theorem dictKeys_append (d e : List (String × PyVal)) :
    dictKeys (d ++ e) = dictKeys d ++ dictKeys e := by
  simp [dictKeys]

theorem dictKeys_replace (d : List (String × PyVal)) (k : String) (v : PyVal) :
    dictKeys (dictReplace d k v) = dictKeys d := by
  induction d with
  | nil => rfl
  | cons p rest ih =>
    by_cases hp : p.1 = k
    · simp only [dictReplace, List.map_cons, if_pos hp, dictKeys_cons]
      simp only [dictReplace] at ih
      rw [ih, hp]
    · simp only [dictReplace, List.map_cons, if_neg hp, dictKeys_cons]
      simp only [dictReplace] at ih
      rw [ih]

theorem length_dictReplace (d : List (String × PyVal)) (k : String) (v : PyVal) :
    (dictReplace d k v).length = d.length := by
  simp [dictReplace]

theorem dictKeys_set (d : List (String × PyVal)) (k : String) (v : PyVal) :
    dictKeys (dictSet d k v) =
      if dictMem d k then dictKeys d else dictKeys d ++ [k] := by
  unfold dictSet
  by_cases h : dictMem d k = true
  · rw [if_pos h, if_pos h, dictKeys_replace]
  · rw [if_neg h, if_neg h, dictKeys_append]
    rfl

theorem length_dictSet_of_mem {d : List (String × PyVal)} {k : String}
    (v : PyVal) (h : dictMem d k = true) :
    (dictSet d k v).length = d.length := by
  simp [dictSet, h, length_dictReplace]

theorem length_dictSet_of_not_mem {d : List (String × PyVal)} {k : String}
    (v : PyVal) (h : dictMem d k = false) :
    (dictSet d k v).length = d.length + 1 := by
  simp [dictSet, h]

theorem dictLookup_nil (k : String) : dictLookup [] k = Option.none := rfl

theorem dictLookup_cons_self {p : String × PyVal} {d : List (String × PyVal)}
    {k : String} (h : p.1 = k) : dictLookup (p :: d) k = some p.2 := by
  simp [dictLookup, List.find?, h]

theorem dictLookup_cons_ne {p : String × PyVal} {d : List (String × PyVal)}
    {k : String} (h : ¬p.1 = k) : dictLookup (p :: d) k = dictLookup d k := by
  simp [dictLookup, List.find?, h]

theorem dictLookup_replace_self {d : List (String × PyVal)} {k : String}
    (v : PyVal) (h : dictMem d k = true) :
    dictLookup (dictReplace d k v) k = some v := by
  induction d with
  | nil => simp [dictMem] at h
  | cons p rest ih =>
    by_cases hp : p.1 = k
    · simp only [dictReplace, List.map_cons, if_pos hp]
      exact dictLookup_cons_self rfl
    · simp only [dictReplace, List.map_cons, if_neg hp]
      rw [dictLookup_cons_ne hp]
      rw [dictMem_cons] at h
      simp only [Bool.or_eq_true, decide_eq_true_eq] at h
      rcases h with h | h
      · exact absurd h hp
      · exact ih h

theorem dictLookup_replace_ne {d : List (String × PyVal)} {k k' : String}
    (v : PyVal) (h : k' ≠ k) :
    dictLookup (dictReplace d k v) k' = dictLookup d k' := by
  induction d with
  | nil => rfl
  | cons p rest ih =>
    by_cases hp : p.1 = k
    · simp only [dictReplace, List.map_cons, if_pos hp]
      rw [dictLookup_cons_ne (fun hk => h hk.symm),
        dictLookup_cons_ne (fun hpk => h (hp.symm.trans hpk).symm)]
      exact ih
    · simp only [dictReplace, List.map_cons, if_neg hp]
      by_cases hpk : p.1 = k'
      · rw [dictLookup_cons_self hpk, dictLookup_cons_self hpk]
      · rw [dictLookup_cons_ne hpk, dictLookup_cons_ne hpk]
        exact ih

theorem dictLookup_append_singleton_ne (d : List (String × PyVal))
    {k k' : String} (v : PyVal) (h : k' ≠ k) :
    dictLookup (d ++ [(k, v)]) k' = dictLookup d k' := by
  induction d with
  | nil => rw [List.nil_append, dictLookup_cons_ne (fun hk => h hk.symm)]
  | cons p rest ih =>
    by_cases hpk : p.1 = k'
    · rw [List.cons_append, dictLookup_cons_self hpk, dictLookup_cons_self hpk]
    · rw [List.cons_append, dictLookup_cons_ne hpk, dictLookup_cons_ne hpk]
      exact ih

theorem dictLookup_append_singleton_self (d : List (String × PyVal))
    {k : String} (v : PyVal) (h : dictMem d k = false) :
    dictLookup (d ++ [(k, v)]) k = some v := by
  induction d with
  | nil => exact dictLookup_cons_self rfl
  | cons p rest ih =>
    rw [dictMem_cons] at h
    simp only [Bool.or_eq_false_iff, decide_eq_false_iff_not] at h
    rw [List.cons_append, dictLookup_cons_ne h.1]
    exact ih h.2

theorem dictLookup_set_self (d : List (String × PyVal)) (k : String) (v : PyVal) :
    dictLookup (dictSet d k v) k = some v := by
  unfold dictSet
  by_cases h : dictMem d k
  · rw [if_pos h]
    exact dictLookup_replace_self v h
  · rw [if_neg h]
    exact dictLookup_append_singleton_self d v (by simpa using h)

theorem dictLookup_set_ne (d : List (String × PyVal)) {k k' : String}
    (v : PyVal) (h : k' ≠ k) :
    dictLookup (dictSet d k v) k' = dictLookup d k' := by
  unfold dictSet
  by_cases hm : dictMem d k
  · rw [if_pos hm]
    exact dictLookup_replace_ne v h
  · rw [if_neg hm]
    exact dictLookup_append_singleton_ne d v h

theorem nodup_dictKeys_set {d : List (String × PyVal)} {k : String} (v : PyVal)
    (h : (dictKeys d).Nodup) : (dictKeys (dictSet d k v)).Nodup := by
  rw [dictKeys_set]
  by_cases hm : dictMem d k
  · simpa [hm] using h
  · rw [if_neg hm]
    have hk : k ∉ dictKeys d := dictMem_eq_false_iff.mp (by simpa using hm)
    simp [List.nodup_append, h, hk]

theorem mem_dictKeys_set_self (d : List (String × PyVal)) (k : String) (v : PyVal) :
    k ∈ dictKeys (dictSet d k v) := by
  rw [dictKeys_set]
  by_cases hm : dictMem d k
  · simpa [hm] using dictMem_iff.mp hm
  · simp [hm]

theorem mem_dictKeys_set_of_mem {d : List (String × PyVal)} {k k' : String}
    (v : PyVal) (h : k' ∈ dictKeys d) : k' ∈ dictKeys (dictSet d k v) := by
  rw [dictKeys_set]
  by_cases hm : dictMem d k <;> simp [hm, h]

theorem countKey_eq_one {d : List (String × PyVal)} {k : String}
    (hn : (dictKeys d).Nodup) (hm : k ∈ dictKeys d) : countKey k d = 1 :=
  List.count_eq_one_of_mem hn hm

theorem dictLookup_isSome_iff {d : List (String × PyVal)} {k : String} :
    (dictLookup d k).isSome = dictMem d k := by
  induction d with
  | nil => rfl
  | cons p rest ih =>
    by_cases hp : p.1 = k
    · rw [dictLookup_cons_self hp, dictMem_cons]
      simp [hp]
    · rw [dictLookup_cons_ne hp, dictMem_cons]
      simp [hp, ih]

theorem dictLookup_eq_none_of_not_mem {d : List (String × PyVal)} {k : String}
    (h : dictMem d k = false) : dictLookup d k = Option.none := by
  have := dictLookup_isSome_iff (d := d) (k := k)
  rw [h] at this
  exact Option.not_isSome_iff_eq_none.mp (by simp [this])

theorem dictLookup_exists_of_mem {d : List (String × PyVal)} {k : String}
    (h : dictMem d k = true) : ∃ v, dictLookup d k = some v := by
  have := dictLookup_isSome_iff (d := d) (k := k)
  rw [h] at this
  exact Option.isSome_iff_exists.mp this

theorem dictLookup_default_self (d : List (String × PyVal)) (k : String) :
    ∃ v, dictLookup (dictDefault d k) k = some v ∧
      (dictLookup d k = some v ∨ (dictLookup d k = Option.none ∧ v = NA)) := by
  unfold dictDefault
  by_cases hm : dictMem d k = true
  · rcases dictLookup_exists_of_mem hm with ⟨v, hv⟩
    exact ⟨v, by simp [hm, hv]⟩
  · have hm' : dictMem d k = false := by simpa using hm
    refine ⟨NA, ?_, Or.inr ⟨dictLookup_eq_none_of_not_mem hm', rfl⟩⟩
    simp only [hm', if_neg, Bool.false_eq_true, not_false_iff]
    exact dictLookup_append_singleton_self d NA hm'

theorem dictLookup_default_ne (d : List (String × PyVal)) {k k' : String}
    (h : k' ≠ k) : dictLookup (dictDefault d k) k' = dictLookup d k' := by
  unfold dictDefault
  by_cases hm : dictMem d k = true
  · simp [hm]
  · have hm' : dictMem d k = false := by simpa using hm
    simp only [hm', Bool.false_eq_true, if_neg, not_false_iff]
    exact dictLookup_append_singleton_ne d NA h

/-! ### String-append lemmas for column names -/

theorem str_append_right_cancel {a b c : String} (h : a ++ c = b ++ c) : a = b := by
  apply String.ext
  have h2 := congrArg String.data h
  rw [String.data_append, String.data_append] at h2
  exact List.append_cancel_right h2

theorem str_append_left_cancel {a b c : String} (h : a ++ b = a ++ c) : b = c := by
  apply String.ext
  have h2 := congrArg String.data h
  rw [String.data_append, String.data_append] at h2
  exact List.append_cancel_left h2

theorem str_data_suffix_of_append_eq {a s b : String} (h : a ++ s = b) :
    s.data <:+ b.data :=
  ⟨a.data, by rw [← String.data_append, h]⟩

theorem marks_ne_max (a b : String) : a ++ "_Marks" ≠ b ++ "_Max" := by
  intro h
  have h2 := congrArg (fun t : String => t.data.getLast?) h
  simp only [String.data_append] at h2
  rw [List.getLast?_append, List.getLast?_append] at h2
  simp at h2

theorem stem_max_ne_marks (st : String) : st ++ "_Max" ≠ st ++ "_Marks" := by
  intro h
  have := str_append_left_cancel h
  simp at this

/-! ### Lemmas about the section loop of the flattener -/

theorem sectionLoop_cons_toPy (acc : List (String × PyVal)) (i : Nat)
    (s : SectionMark) (rest : List PyVal) :
    sectionLoop acc i (SectionMark.toPy s :: rest) =
      sectionLoop (dictSet (dictSet acc (s.stem ++ "_Marks") (.str s.marks_obtained))
        (s.stem ++ "_Max") (.str s.max_marks)) (i + 1) rest := rfl

theorem dictKeys_baseRow (d : List (String × PyVal)) :
    dictKeys (baseRow d) = baseNames := rfl

theorem length_baseRow (d : List (String × PyVal)) : (baseRow d).length = 9 := rfl

theorem sectionLoop_fresh_length (ss : List SectionMark) :
    ∀ (acc : List (String × PyVal)) (i : Nat),
    (∀ s ∈ ss, (s.stem ++ "_Marks") ∉ dictKeys acc ∧ (s.stem ++ "_Max") ∉ dictKeys acc) →
    (ss.map SectionMark.stem).Nodup →
    ∃ row, sectionLoop acc i (ss.map SectionMark.toPy) = .ok row ∧
      row.length = acc.length + 2 * ss.length := by
  induction ss with
  | nil => exact fun acc i _ _ => ⟨acc, rfl, by simp⟩
  | cons s rest ih =>
    intro acc i hfresh hnd
    rw [List.map_cons, sectionLoop_cons_toPy]
    have hsa : (s.stem ++ "_Marks") ∉ dictKeys acc :=
      (hfresh s (List.mem_cons_self s rest)).1
    have hsb : (s.stem ++ "_Max") ∉ dictKeys acc :=
      (hfresh s (List.mem_cons_self s rest)).2
    have hba : (s.stem ++ "_Max") ≠ (s.stem ++ "_Marks") := stem_max_ne_marks s.stem
    have hma : dictMem acc (s.stem ++ "_Marks") = false := dictMem_eq_false_iff.mpr hsa
    have hk1 : dictKeys (dictSet acc (s.stem ++ "_Marks") (.str s.marks_obtained)) =
        dictKeys acc ++ [s.stem ++ "_Marks"] := by
      rw [dictKeys_set, hma]
      simp
    have hmb : dictMem (dictSet acc (s.stem ++ "_Marks") (.str s.marks_obtained))
        (s.stem ++ "_Max") = false := by
      rw [dictMem_eq_false_iff, hk1]
      simp [hsb, hba]
    have hk2 : dictKeys (dictSet (dictSet acc (s.stem ++ "_Marks") (.str s.marks_obtained))
        (s.stem ++ "_Max") (.str s.max_marks)) =
        dictKeys acc ++ [s.stem ++ "_Marks"] ++ [s.stem ++ "_Max"] := by
      rw [dictKeys_set, hmb]
      simp [hk1]
    have hstem : s.stem ∉ rest.map SectionMark.stem := by
      rw [List.map_cons] at hnd
      exact (List.nodup_cons.mp hnd).1
    have hndrest : (rest.map SectionMark.stem).Nodup := by
      rw [List.map_cons] at hnd
      exact (List.nodup_cons.mp hnd).2
    have hfresh2 : ∀ t ∈ rest,
        (t.stem ++ "_Marks") ∉ dictKeys (dictSet (dictSet acc (s.stem ++ "_Marks")
          (.str s.marks_obtained)) (s.stem ++ "_Max") (.str s.max_marks)) ∧
        (t.stem ++ "_Max") ∉ dictKeys (dictSet (dictSet acc (s.stem ++ "_Marks")
          (.str s.marks_obtained)) (s.stem ++ "_Max") (.str s.max_marks)) := by
      intro t ht
      have hts : t.stem ≠ s.stem := by
        intro he
        exact hstem (he ▸ List.mem_map_of_mem SectionMark.stem ht)
      have h1 := (hfresh t (List.mem_cons_of_mem s ht)).1
      have h2 := (hfresh t (List.mem_cons_of_mem s ht)).2
      rw [hk2]
      constructor
      · simp only [List.mem_append, List.mem_singleton]
        rintro ((hc | hc) | hc)
        · exact h1 hc
        · exact hts (str_append_right_cancel hc)
        · exact marks_ne_max t.stem s.stem hc
      · simp only [List.mem_append, List.mem_singleton]
        rintro ((hc | hc) | hc)
        · exact h2 hc
        · exact (marks_ne_max s.stem t.stem) hc.symm
        · exact hts (str_append_right_cancel hc)
    rcases ih _ (i + 1) hfresh2 hndrest with ⟨row, heq, hlen⟩
    refine ⟨row, heq, ?_⟩
    have hl1 : (dictSet acc (s.stem ++ "_Marks") (.str s.marks_obtained)).length =
        acc.length + 1 := length_dictSet_of_not_mem _ hma
    have hl2 : (dictSet (dictSet acc (s.stem ++ "_Marks") (.str s.marks_obtained))
        (s.stem ++ "_Max") (.str s.max_marks)).length = acc.length + 2 := by
      rw [length_dictSet_of_not_mem _ hmb, hl1]
    rw [hlen, hl2, List.length_cons]
    ring

theorem marks_not_in_baseNames {st : String} (h1 : st ≠ "Total")
    (h2 : st ≠ "Total_Max") : (st ++ "_Marks") ∉ baseNames := by
  intro h
  simp only [baseNames, List.mem_cons, List.not_mem_nil, or_false] at h
  rcases h with h | h | h | h | h | h | h | h | h
  · exact absurd (str_data_suffix_of_append_eq h) (by decide)
  · exact absurd (str_data_suffix_of_append_eq h) (by decide)
  · exact absurd (str_data_suffix_of_append_eq h) (by decide)
  · exact absurd (str_data_suffix_of_append_eq h) (by decide)
  · exact absurd (str_data_suffix_of_append_eq h) (by decide)
  · exact h1 (str_append_right_cancel
      (h.trans (show ("Total_Marks" : String) = "Total" ++ "_Marks" by decide)))
  · exact h2 (str_append_right_cancel
      (h.trans (show ("Total_Max_Marks" : String) = "Total_Max" ++ "_Marks" by decide)))
  · exact absurd (str_data_suffix_of_append_eq h) (by decide)
  · exact absurd (str_data_suffix_of_append_eq h) (by decide)

theorem max_not_in_baseNames (st : String) : (st ++ "_Max") ∉ baseNames := by
  intro h
  simp only [baseNames, List.mem_cons, List.not_mem_nil, or_false] at h
  rcases h with h | h | h | h | h | h | h | h | h
  · exact absurd (str_data_suffix_of_append_eq h) (by decide)
  · exact absurd (str_data_suffix_of_append_eq h) (by decide)
  · exact absurd (str_data_suffix_of_append_eq h) (by decide)
  · exact absurd (str_data_suffix_of_append_eq h) (by decide)
  · exact absurd (str_data_suffix_of_append_eq h) (by decide)
  · exact absurd (str_data_suffix_of_append_eq h) (by decide)
  · exact absurd (str_data_suffix_of_append_eq h) (by decide)
  · exact absurd (str_data_suffix_of_append_eq h) (by decide)
  · exact absurd (str_data_suffix_of_append_eq h) (by decide)

theorem noAdj_cons_cons (p : Char → Bool) (a b : Char) (rest : List Char) :
    noAdj p (a :: b :: rest) = (!(p a && p b) && noAdj p (b :: rest)) := rfl

theorem noAdj_tail {p : Char → Bool} {a : Char} {M : List Char}
    (h : noAdj p (a :: M) = true) : noAdj p M = true := by
  cases M with
  | nil => rfl
  | cons b rest =>
    rw [noAdj_cons_cons, Bool.and_eq_true] at h
    exact h.2

theorem noAdj_cons_of {p : Char → Bool} {a : Char} {M : List Char}
    (hM : noAdj p M = true)
    (h : p a = false ∨ ∀ c, M.head? = some c → p c = false) :
    noAdj p (a :: M) = true := by
  cases M with
  | nil => rfl
  | cons b rest =>
    rw [noAdj_cons_cons, Bool.and_eq_true]
    refine ⟨?_, hM⟩
    rcases h with h | h
    · simp [h]
    · simp [h b rfl]

theorem collapseAux_cons_false_pos {p : Char → Bool} {rep d : Char}
    {rest : List Char} (h : p d = true) :
    collapseAux p rep false (d :: rest) = rep :: collapseAux p rep true rest := by
  simp [collapseAux, h]

theorem collapseAux_cons_true_pos {p : Char → Bool} {rep d : Char}
    {rest : List Char} (h : p d = true) :
    collapseAux p rep true (d :: rest) = collapseAux p rep true rest := by
  simp [collapseAux, h]

theorem collapseAux_cons_neg {p : Char → Bool} {rep d : Char} {b : Bool}
    {rest : List Char} (h : p d = false) :
    collapseAux p rep b (d :: rest) = d :: collapseAux p rep false rest := by
  cases b <;> simp [collapseAux, h]

theorem collapseAux_props (p : Char → Bool) (rep : Char) (l : List Char) :
    noAdj p (collapseAux p rep false l) = true ∧
    noAdj p (collapseAux p rep true l) = true ∧
    (∀ c, (collapseAux p rep true l).head? = some c → p c = false) := by
  induction l with
  | nil => exact ⟨rfl, rfl, fun c h => by cases h⟩
  | cons d rest ih =>
    by_cases hd : p d = true
    · refine ⟨?_, ?_, ?_⟩
      · rw [collapseAux_cons_false_pos hd]
        exact noAdj_cons_of ih.2.1 (Or.inr ih.2.2)
      · rw [collapseAux_cons_true_pos hd]
        exact ih.2.1
      · rw [collapseAux_cons_true_pos hd]
        exact ih.2.2
    · have hd' : p d = false := by simpa using hd
      refine ⟨?_, ?_, ?_⟩
      · rw [collapseAux_cons_neg hd']
        exact noAdj_cons_of ih.1 (Or.inl hd')
      · rw [collapseAux_cons_neg hd']
        exact noAdj_cons_of ih.1 (Or.inl hd')
      · rw [collapseAux_cons_neg hd']
        intro c h
        rw [List.head?_cons, Option.some.injEq] at h
        rw [← h]
        exact hd'

theorem mem_collapseAux {p : Char → Bool} {rep : Char} :
    ∀ {b : Bool} {l : List Char} {c : Char}, c ∈ collapseAux p rep b l →
      c = rep ∨ (c ∈ l ∧ p c = false) := by
  intro b l
  induction l generalizing b with
  | nil => intro c h; cases h
  | cons d rest ih =>
    intro c h
    by_cases hd : p d = true
    · cases b with
      | true =>
        rw [collapseAux_cons_true_pos hd] at h
        rcases ih h with h | ⟨hm, hc⟩
        · exact Or.inl h
        · exact Or.inr ⟨List.mem_cons_of_mem d hm, hc⟩
      | false =>
        rw [collapseAux_cons_false_pos hd] at h
        rcases List.mem_cons.mp h with h | h
        · exact Or.inl h
        · rcases ih h with h | ⟨hm, hc⟩
          · exact Or.inl h
          · exact Or.inr ⟨List.mem_cons_of_mem d hm, hc⟩
    · have hd' : p d = false := by simpa using hd
      rw [collapseAux_cons_neg hd'] at h
      rcases List.mem_cons.mp h with h | h
      · exact Or.inr ⟨h ▸ List.mem_cons_self d rest, h ▸ hd'⟩
      · rcases ih h with h | ⟨hm, hc⟩
        · exact Or.inl h
        · exact Or.inr ⟨List.mem_cons_of_mem d hm, hc⟩

theorem noAdj_append_left {p : Char → Bool} :
    ∀ {l t : List Char}, noAdj p (l ++ t) = true → noAdj p l = true := by
  intro l
  induction l with
  | nil => intro t _; rfl
  | cons a M ih =>
    intro t h
    cases M with
    | nil => rfl
    | cons b rest =>
      rw [List.cons_append, List.cons_append, noAdj_cons_cons, Bool.and_eq_true] at h
      rw [noAdj_cons_cons, Bool.and_eq_true]
      refine ⟨h.1, ?_⟩
      exact ih (t := t) (by simpa using h.2)

theorem noAdj_append_right {p : Char → Bool} :
    ∀ {t l : List Char}, noAdj p (t ++ l) = true → noAdj p l = true := by
  intro t
  induction t with
  | nil => intro l h; simpa using h
  | cons a M ih =>
    intro l h
    rw [List.cons_append] at h
    exact ih (noAdj_tail h)

theorem dropWhile_head?_false {p : Char → Bool} :
    ∀ {l : List Char} {c : Char}, (l.dropWhile p).head? = some c → p c = false := by
  intro l
  induction l with
  | nil => intro c h; cases h
  | cons a rest ih =>
    intro c h
    by_cases ha : p a = true
    · rw [List.dropWhile_cons_of_pos ha] at h
      exact ih h
    · have ha' : p a = false := by simpa using ha
      rw [List.dropWhile_cons_of_neg (by simp [ha'])] at h
      rw [List.head?_cons, Option.some.injEq] at h
      exact h ▸ ha'

theorem stripUnderscores_initial (l : List Char) :
    stripUnderscores l <+: l.dropWhile (· = '_') := by
  unfold stripUnderscores
  rw [← List.reverse_suffix, List.reverse_reverse]
  exact List.dropWhile_suffix _

theorem stripUnderscores_reverse (l : List Char) :
    (stripUnderscores l).reverse = (l.dropWhile (· = '_')).reverse.dropWhile (· = '_') := by
  unfold stripUnderscores
  rw [List.reverse_reverse]

theorem mem_stripUnderscores {l : List Char} {c : Char}
    (h : c ∈ stripUnderscores l) : c ∈ l := by
  unfold stripUnderscores at h
  rw [List.mem_reverse] at h
  have h2 := (List.dropWhile_sublist (l := (l.dropWhile (· = '_')).reverse)
    (p := (· = '_'))).mem h
  rw [List.mem_reverse] at h2
  exact (List.dropWhile_sublist (l := l) (p := (· = '_'))).mem h2

theorem head?_of_initial {l' l : List Char} (h : l' <+: l) (hne : l' ≠ []) :
    l.head? = l'.head? := by
  rcases h with ⟨t, ht⟩
  subst ht
  cases l' with
  | nil => exact absurd rfl hne
  | cons a M => rfl

theorem noAdj_of_suffix {p : Char → Bool} {l l' : List Char} (h : l' <:+ l)
    (hl : noAdj p l = true) : noAdj p l' = true := by
  rcases h with ⟨t, rfl⟩
  exact noAdj_append_right hl

theorem noAdj_of_initial {p : Char → Bool} {l l' : List Char} (h : l' <+: l)
    (hl : noAdj p l = true) : noAdj p l' = true := by
  rcases h with ⟨t, rfl⟩
  exact noAdj_append_left hl

theorem firstNumber_eq_none {l : List Char} (h : ∀ c ∈ l, c.isDigit = false) :
    firstNumber l = Option.none := by
  induction l with
  | nil => rfl
  | cons c rest ih =>
    unfold firstNumber
    rw [h c (List.mem_cons_self c rest)]
    simp only [Bool.false_eq_true, if_false]
    exact ih fun c' hc' => h c' (List.mem_cons_of_mem c hc')

theorem headNotUnderscore_of {l : List Char}
    (h : ∀ c, l.head? = some c → decide (c = '_') = false) :
    headNotUnderscore l = true := by
  unfold headNotUnderscore
  cases hh : l.head? with
  | none => rfl
  | some c => simp [h c hh]

/-- The full cleaning pipeline always yields a well-formed name. -/
theorem isCleanName_pipeline (l0 : List Char) :
    isCleanName
      (if (stripUnderscores (collapseRuns (fun c => c = '_') '_'
          (collapseRuns isPySpace '_'
            (l0.filter (fun c => isWordChar c || isPySpace c))))).isEmpty
        then "Unknown_Field"
        else String.mk (stripUnderscores (collapseRuns (fun c => c = '_') '_'
          (collapseRuns isPySpace '_'
            (l0.filter (fun c => isWordChar c || isPySpace c)))))) = true := by
  set step1 := l0.filter (fun c => isWordChar c || isPySpace c) with hs1
  set step2 := collapseRuns isPySpace '_' step1 with hs2
  set step3 := collapseRuns (fun c => c = '_') '_' step2 with hs3
  set step4 := stripUnderscores step3 with hs4
  by_cases hemp : step4.isEmpty
  · rw [if_pos hemp]
    decide
  · rw [if_neg hemp]
    have hne : step4 ≠ [] := fun h => hemp (by rw [h]; rfl)
    have hword : ∀ c ∈ step4, isWordChar c = true := by
      intro c hc
      have hc3 : c ∈ step3 := mem_stripUnderscores hc
      rcases mem_collapseAux (hs3 ▸ hc3) with rfl | ⟨hc2, _⟩
      · decide
      · rcases mem_collapseAux (hs2 ▸ hc2) with rfl | ⟨hc1, hnsp⟩
        · decide
        · have hp := (List.mem_filter.mp (hs1 ▸ hc1)).2
          rw [Bool.or_eq_true] at hp
          rcases hp with hp | hp
          · exact hp
          · rw [hp] at hnsp
            cases hnsp
    have hnoadj : noAdj (fun c => c = '_') step4 = true := by
      have h3 : noAdj (fun c => c = '_') step3 = true :=
        (collapseAux_props (fun c => c = '_') '_' step2).1
      have hdw : noAdj (fun c => c = '_')
          (step3.dropWhile (fun c => c = '_')) = true :=
        noAdj_of_suffix (List.dropWhile_suffix _) h3
      exact noAdj_of_initial (stripUnderscores_initial step3) hdw
    have hhead : headNotUnderscore step4 = true := by
      refine headNotUnderscore_of fun c hc => ?_
      have hpre := head?_of_initial (stripUnderscores_initial step3) hne
      exact dropWhile_head?_false (hpre ▸ hc)
    have hlast : headNotUnderscore step4.reverse = true := by
      refine headNotUnderscore_of fun c hc => ?_
      rw [stripUnderscores_reverse step3] at hc
      exact dropWhile_head?_false hc
    unfold isCleanName
    simp only [Bool.and_eq_true]
    refine ⟨⟨⟨⟨?_, ?_⟩, ?_⟩, ?_⟩, ?_⟩
    · simpa using hemp
    · exact List.all_eq_true.mpr hword
    · exact hnoadj
    · exact hhead
    · exact hlast

/-! ### Claim theorems -/

/-- C1: claimed — for every raw response with no parseable JSON the
parser returns normally with an error-tagged record.  The code diverges:
when the text holds no candidate at all (no fenced block and no brace
span), the `raise ValueError("No JSON found in response")` escapes,
because the `except` clause catches only `json.JSONDecodeError`, which
the raised `ValueError` is not an instance of.  The second conjunct shows
the absorbing path the claim describes does hold when a candidate exists
but fails to decode. -/
theorem C1_parser_raises_without_candidate :
    parse_extraction_result "The image is unreadable." =
      .error (.valueError "No JSON found in response") ∧
    parse_extraction_result "text \x7bnot json\x7d more" =
      .ok (parseErrorRecord "Expecting property name enclosed in double quotes"
        "text \x7bnot json\x7d more") :=
  ⟨rfl, rfl⟩

/-- C2 counterexample: parsing `{}` succeeds and the defaulting loop sets
`sectionwise_marks` to the string `"Not Available"`, not to the empty
sequence the claim states. -/
theorem C2_counterexample :
    parse_extraction_result "\x7b\x7d" =
      .ok (.dict [("rrn", NA), ("sectionwise_marks", NA), ("total_marks", NA)]) ∧
    NA ≠ PyVal.list [] :=
  ⟨rfl, fun h => PyVal.noConfusion h⟩

/-- C2 (amended): for every successfully parsed JSON object, the returned
record contains `rrn`, `sectionwise_marks` and `total_marks`; a key
missing from the parsed object is defaulted to the string
`"Not Available"` — including `sectionwise_marks`, which is defaulted to
that string rather than to the empty sequence — and a present key keeps
its parsed value. -/
theorem C2_required_fields_defaulted (text c : String) (o : List (String × PyVal))
    (hc : candidateOf text = some c) (hj : jsonLoads c = .ok (.dict o)) :
    ∃ d, parse_extraction_result text = .ok (.dict d) ∧
      ∀ k ∈ required_fields, ∃ v, dictLookup d k = some v ∧
        (dictLookup o k = some v ∨ (dictLookup o k = Option.none ∧ v = NA)) := by
  refine ⟨dictDefault (dictDefault (dictDefault o "rrn") "sectionwise_marks")
    "total_marks", ?_, ?_⟩
  · unfold parse_extraction_result
    rw [hc]
    show (match jsonLoads c with
      | Except.ok parsed => applyDefaults parsed
      | Except.error e => Except.ok (parseErrorRecord e.msg text)) = _
    rw [hj]
    rfl
  · intro k hk
    simp only [required_fields, List.mem_cons, List.not_mem_nil, or_false] at hk
    rcases hk with rfl | rfl | rfl
    · rcases dictLookup_default_self o "rrn" with ⟨v, hv, hrel⟩
      refine ⟨v, ?_, hrel⟩
      rw [dictLookup_default_ne _ (by decide), dictLookup_default_ne _ (by decide)]
      exact hv
    · rcases dictLookup_default_self (dictDefault o "rrn") "sectionwise_marks"
        with ⟨v, hv, hrel⟩
      refine ⟨v, ?_, ?_⟩
      · rw [dictLookup_default_ne _ (by decide)]
        exact hv
      · rw [dictLookup_default_ne _ (by decide)] at hrel
        exact hrel
    · rcases dictLookup_default_self
        (dictDefault (dictDefault o "rrn") "sectionwise_marks") "total_marks"
        with ⟨v, hv, hrel⟩
      refine ⟨v, hv, ?_⟩
      rw [dictLookup_default_ne _ (by decide), dictLookup_default_ne _ (by decide)]
        at hrel
      exact hrel

/-- Witness for C2's amended theorem at a concrete parse. -/
theorem C2_required_fields_defaulted_witness :
    ∃ d, parse_extraction_result "\x7b\"rrn\": \"R1\"\x7d" = .ok (.dict d) ∧
      ∀ k ∈ required_fields, ∃ v, dictLookup d k = some v ∧
        (dictLookup [("rrn", PyVal.str "R1")] k = some v ∨
          (dictLookup [("rrn", PyVal.str "R1")] k = Option.none ∧ v = NA)) :=
  C2_required_fields_defaulted _ _ [("rrn", PyVal.str "R1")] rfl rfl

/-- C3 counterexample: with two sections of the same subject the row has
eleven columns, not `9 + 2 · 2 = 13`: the second occurrence's columns
overwrite the first's instead of getting a fresh per-index stem. -/
theorem C3_counterexample :
    dupSections.length = 2 ∧
    (create_csv_data (.dict dupRecord)).length = 11 ∧
    (create_csv_data (.dict dupRecord)).length ≠ 9 + 2 * dupSections.length :=
  ⟨rfl, rfl, by decide⟩

/-- C3 (amended): the flattener emits exactly `9 + 2N` columns provided
the cleaned subject stems are pairwise distinct and none equals `Total`
or `Total_Max` (whose generated `_Marks` column would collide with a base
column); stems are not disambiguated per index, so repeated stems
overwrite instead of adding columns. -/
theorem C3_column_count (rrn nm cls sch yr tot totmax pct grd : String)
    (sections : List SectionMark)
    (hnd : (sections.map SectionMark.stem).Nodup)
    (hT : ∀ s ∈ sections, s.stem ≠ "Total" ∧ s.stem ≠ "Total_Max") :
    (create_csv_data (mkRecord rrn nm cls sch yr tot totmax pct grd sections)).length
      = 9 + 2 * sections.length := by
  cases sections with
  | nil =>
    have h0 : create_csv_data (mkRecord rrn nm cls sch yr tot totmax pct grd []) =
        baseRow (mkRecordDict rrn nm cls sch yr tot totmax pct grd []) := rfl
    rw [h0, length_baseRow]
    rfl
  | cons s rest =>
    have hfresh : ∀ t ∈ s :: rest,
        (t.stem ++ "_Marks") ∉
          dictKeys (baseRow (mkRecordDict rrn nm cls sch yr tot totmax pct grd (s :: rest))) ∧
        (t.stem ++ "_Max") ∉
          dictKeys (baseRow (mkRecordDict rrn nm cls sch yr tot totmax pct grd (s :: rest))) := by
      intro t ht
      rw [dictKeys_baseRow]
      exact ⟨marks_not_in_baseNames (hT t ht).1 (hT t ht).2, max_not_in_baseNames t.stem⟩
    rcases sectionLoop_fresh_length (s :: rest) _ 0 hfresh hnd with ⟨row, heq, hlen⟩
    have hbody : createCsvBody (mkRecord rrn nm cls sch yr tot totmax pct grd (s :: rest)) =
        sectionLoop (baseRow (mkRecordDict rrn nm cls sch yr tot totmax pct grd (s :: rest)))
          0 ((s :: rest).map SectionMark.toPy) := rfl
    unfold create_csv_data
    rw [hbody, heq, hlen, length_baseRow]

/-- Witness for C3's amended theorem: two distinct stems give 13 columns. -/
theorem C3_column_count_witness :
    (create_csv_data (mkRecord "R1" "N" "C" "S" "Y" "70" "100" "70" "A"
      [⟨"Math", "40", "50"⟩, ⟨"Science", "30", "50"⟩])).length = 9 + 2 * 2 :=
  C3_column_count "R1" "N" "C" "S" "Y" "70" "100" "70" "A"
    [⟨"Math", "40", "50"⟩, ⟨"Science", "30", "50"⟩] (by decide) (by decide)

/-- C4 counterexample: two sections with the same stem produce a row with
exactly one `Math_Marks` column (not one per occurrence), holding the
later occurrence's value. -/
theorem C4_counterexample :
    countKey "Math_Marks" (create_csv_data (.dict dupRecord)) = 1 ∧
    countKey "Math_Marks" (create_csv_data (.dict dupRecord)) ≠ 2 ∧
    dictLookup (create_csv_data (.dict dupRecord)) "Math_Marks" = some (.str "30") :=
  ⟨rfl, by decide, rfl⟩

/-- C4 (amended): when two sections yield the same cleaned stem, the
flattener merges them: the later occurrence overwrites the earlier pair
in place, so the row holds exactly one `_Marks`/`_Max` pair for that
stem, carrying the last occurrence's values. -/
theorem C4_duplicate_stems_overwrite (rrn nm cls sch yr tot totmax pct grd : String)
    (s1 s2 : SectionMark) (h : s1.stem = s2.stem) :
    countKey (s2.stem ++ "_Marks")
      (create_csv_data (mkRecord rrn nm cls sch yr tot totmax pct grd [s1, s2])) = 1 ∧
    countKey (s2.stem ++ "_Max")
      (create_csv_data (mkRecord rrn nm cls sch yr tot totmax pct grd [s1, s2])) = 1 ∧
    dictLookup (create_csv_data (mkRecord rrn nm cls sch yr tot totmax pct grd [s1, s2]))
      (s2.stem ++ "_Marks") = some (.str s2.marks_obtained) ∧
    dictLookup (create_csv_data (mkRecord rrn nm cls sch yr tot totmax pct grd [s1, s2]))
      (s2.stem ++ "_Max") = some (.str s2.max_marks) := by
  have hrow : create_csv_data (mkRecord rrn nm cls sch yr tot totmax pct grd [s1, s2]) =
      dictSet (dictSet (dictSet (dictSet
        (baseRow (mkRecordDict rrn nm cls sch yr tot totmax pct grd [s1, s2]))
        (s1.stem ++ "_Marks") (.str s1.marks_obtained))
        (s1.stem ++ "_Max") (.str s1.max_marks))
        (s2.stem ++ "_Marks") (.str s2.marks_obtained))
        (s2.stem ++ "_Max") (.str s2.max_marks) := rfl
  rw [h] at hrow
  have hab : (s2.stem ++ "_Marks") ≠ (s2.stem ++ "_Max") :=
    Ne.symm (stem_max_ne_marks s2.stem)
  have hnodup : (dictKeys (create_csv_data
      (mkRecord rrn nm cls sch yr tot totmax pct grd [s1, s2]))).Nodup := by
    rw [hrow]
    refine nodup_dictKeys_set _ (nodup_dictKeys_set _ (nodup_dictKeys_set _
      (nodup_dictKeys_set _ ?_)))
    rw [dictKeys_baseRow]
    decide
  have hmema : (s2.stem ++ "_Marks") ∈ dictKeys (create_csv_data
      (mkRecord rrn nm cls sch yr tot totmax pct grd [s1, s2])) := by
    rw [hrow]
    exact mem_dictKeys_set_of_mem _ (mem_dictKeys_set_self _ _ _)
  have hmemb : (s2.stem ++ "_Max") ∈ dictKeys (create_csv_data
      (mkRecord rrn nm cls sch yr tot totmax pct grd [s1, s2])) := by
    rw [hrow]
    exact mem_dictKeys_set_self _ _ _
  refine ⟨countKey_eq_one hnodup hmema, countKey_eq_one hnodup hmemb, ?_, ?_⟩
  · rw [hrow, dictLookup_set_ne _ _ hab, dictLookup_set_self]
  · rw [hrow, dictLookup_set_self]

/-- Witness for C4's amended theorem with two `Math` sections. -/
theorem C4_duplicate_stems_overwrite_witness :
    countKey ((SectionMark.mk "Math" "30" "50").stem ++ "_Marks")
      (create_csv_data (mkRecord "R1" "N" "C" "S" "Y" "70" "100" "70" "A"
        [⟨"Math", "40", "50"⟩, ⟨"Math", "30", "50"⟩])) = 1 ∧
    countKey ((SectionMark.mk "Math" "30" "50").stem ++ "_Max")
      (create_csv_data (mkRecord "R1" "N" "C" "S" "Y" "70" "100" "70" "A"
        [⟨"Math", "40", "50"⟩, ⟨"Math", "30", "50"⟩])) = 1 ∧
    dictLookup (create_csv_data (mkRecord "R1" "N" "C" "S" "Y" "70" "100" "70" "A"
        [⟨"Math", "40", "50"⟩, ⟨"Math", "30", "50"⟩]))
      ((SectionMark.mk "Math" "30" "50").stem ++ "_Marks") = some (.str "30") ∧
    dictLookup (create_csv_data (mkRecord "R1" "N" "C" "S" "Y" "70" "100" "70" "A"
        [⟨"Math", "40", "50"⟩, ⟨"Math", "30", "50"⟩]))
      ((SectionMark.mk "Math" "30" "50").stem ++ "_Max") = some (.str "50") :=
  C4_duplicate_stems_overwrite "R1" "N" "C" "S" "Y" "70" "100" "70" "A"
    ⟨"Math", "40", "50"⟩ ⟨"Math", "30", "50"⟩ rfl

/-- C5: end-to-end scenario — the fenced JSON is extracted and parsed,
`rrn` is `R123`, there is exactly one SectionMark, `student_name` is
absent from the parsed record (so every read of it yields the sentinel),
and flattening yields eleven columns with `Math_Marks = "40"`,
`Math_Max = "50"` and `Student_Name` equal to the sentinel. -/
theorem C5_end_to_end :
    parse_extraction_result c5Input = .ok (.dict c5Record) ∧
    dictLookup c5Record "rrn" = some (.str "R123") ∧
    dictLookup c5Record "sectionwise_marks" =
      some (.list [.dict [("subject", .str "Math"), ("marks_obtained", .str "40"),
        ("max_marks", .str "50")]]) ∧
    dictLookup c5Record "student_name" = Option.none ∧
    create_csv_data (.dict c5Record) = c5Row ∧
    c5Row.length = 11 ∧
    dictLookup c5Row "Math_Marks" = some (.str "40") ∧
    dictLookup c5Row "Math_Max" = some (.str "50") ∧
    dictLookup c5Row "Student_Name" = some NA :=
  ⟨rfl, rfl, rfl, rfl, rfl, rfl, rfl, rfl, rfl⟩

/-- C6 counterexample: `save_to_csv` writes `OUTPUT_DIR/filename`
unconditionally; saving under a name that already exists replaces the old
contents — the Sink does mutate the pre-existing file, and
`get_unique_filename` is never called by `save_to_csv`. -/
theorem C6_counterexample :
    fsRead fs0 "output/data.csv" = some "old contents" ∧
    (save_to_csv fs0 row0 (some "data.csv") "20250101_000000").1 = "output/data.csv" ∧
    fsRead (save_to_csv fs0 row0 (some "data.csv") "20250101_000000").2
      "output/data.csv" = some (dfToCsv row0) ∧
    dfToCsv row0 ≠ "old contents" :=
  ⟨rfl, rfl, rfl, by decide⟩

/-- Correctness of the unique-filename loop, by induction on the fuel. -/
theorem uniqueLoop_spec (paths : List String) (directory name ext : String) :
    ∀ (fuel counter : Nat) (filename f : String),
      uniqueLoop paths directory name ext fuel counter filename = some f →
      (directory ++ "/" ++ f) ∉ paths ∧
        (f = filename ∨ ∃ k, counter ≤ k ∧ f = name ++ "_" ++ toString k ++ ext) := by
  intro fuel
  induction fuel with
  | zero => intro counter filename f h; cases h
  | succ n ih =>
    intro counter filename f h
    unfold uniqueLoop at h
    by_cases hm : (directory ++ "/" ++ filename) ∈ paths
    · rw [if_pos hm] at h
      rcases ih (counter + 1) _ f h with ⟨hnf, hform⟩
      refine ⟨hnf, Or.inr ?_⟩
      rcases hform with rfl | ⟨k, hk, rfl⟩
      · exact ⟨counter, Nat.le_refl _, rfl⟩
      · exact ⟨k, Nat.le_of_succ_le hk, rfl⟩
    · rw [if_neg hm] at h
      have hf := Option.some.inj h
      subst hf
      exact ⟨hm, Or.inl rfl⟩

/-- C6 (amended): `save_to_csv` itself overwrites (see the
counterexample); the suffixing contract lives only in the never-invoked
helper `FileManager.get_unique_filename`, which — whenever its search
loop returns — yields a filename that does not exist in the directory:
the base name unchanged, or the base name with a `_k` suffix (`k ≥ 1`)
inserted before the extension. -/
theorem C6_unique_filename_fresh (paths : List String) (directory base : String)
    (fuel : Nat) (f : String)
    (h : get_unique_filename paths directory base fuel = some f) :
    (directory ++ "/" ++ f) ∉ paths ∧
      (f = base ∨ ∃ k, 1 ≤ k ∧
        f = (splitext base).1 ++ "_" ++ toString k ++ (splitext base).2) := by
  unfold get_unique_filename at h
  exact uniqueLoop_spec paths directory _ _ fuel 1 base f h

/-- Witness for C6's amended theorem: with `data.csv` taken, the helper
returns the fresh `data_1.csv`. -/
theorem C6_unique_filename_fresh_witness :
    ("output" ++ "/" ++ "data_1.csv") ∉ ["output/data.csv"] ∧
      ("data_1.csv" = "data.csv" ∨ ∃ k, 1 ≤ k ∧
        "data_1.csv" = (splitext "data.csv").1 ++ "_" ++ toString k ++
          (splitext "data.csv").2) :=
  C6_unique_filename_fresh ["output/data.csv"] "output" "data.csv" 3 "data_1.csv" rfl

/-- C7: the flattener never raises — `create_csv_data` is total, and
whenever its try-body raises internally it returns exactly the
three-column error row with `RRN = "Error"`, the exception message, and
the string form of the input record. -/
theorem C7_flattener_absorbs (v : PyVal) (e : PyErr)
    (h : createCsvBody v = .error e) :
    create_csv_data v = [("RRN", .str "Error"), ("Error_Message", .str e.msg),
      ("Raw_Data", .str (pyRepr v))] := by
  unfold create_csv_data
  rw [h]
  rfl

/-- Witness for C7 at a record whose non-string subject raises inside the
loop. -/
theorem C7_flattener_absorbs_witness :
    create_csv_data badSectionRecord = [("RRN", .str "Error"),
      ("Error_Message", .str "expected string or bytes-like object"),
      ("Raw_Data", .str (pyRepr badSectionRecord))] :=
  C7_flattener_absorbs badSectionRecord
    (.typeError "expected string or bytes-like object") rfl

/-- C10: when `sectionwise_marks` is absent or holds a non-list value
(such as the parser-installed `"Not Available"`), the flattener takes its
normal path and returns exactly the nine base columns, each read from the
record with the `"Not Available"` default. -/
theorem C10_nonlist_sections_base_row (d : List (String × PyVal))
    (h : (dictLookup d "sectionwise_marks").all (fun v => !v.isList) = true) :
    create_csv_data (.dict d) = baseRow d ∧
      (create_csv_data (.dict d)).length = 9 := by
  have hbody : createCsvBody (.dict d) = .ok (baseRow d) := by
    cases hl : dictLookup d "sectionwise_marks" with
    | none =>
      have hg : dictGet d "sectionwise_marks" (.list []) = .list [] := by
        rw [dictGet, hl]
        rfl
      show (match dictGet d "sectionwise_marks" (.list []) with
        | PyVal.list l => if l.isEmpty = true then Except.ok (baseRow d)
            else sectionLoop (baseRow d) 0 l
        | _ => Except.ok (baseRow d)) = Except.ok (baseRow d)
      rw [hg]
      rfl
    | some v =>
      have hg : dictGet d "sectionwise_marks" (.list []) = v := by
        rw [dictGet, hl]
        rfl
      rw [hl] at h
      show (match dictGet d "sectionwise_marks" (.list []) with
        | PyVal.list l => if l.isEmpty = true then Except.ok (baseRow d)
            else sectionLoop (baseRow d) 0 l
        | _ => Except.ok (baseRow d)) = Except.ok (baseRow d)
      rw [hg]
      cases v with
      | list l => simp [Option.all, PyVal.isList] at h
      | str s => rfl
      | int n => rfl
      | bool b => rfl
      | none => rfl
      | dict dd => rfl
  have hrow : create_csv_data (.dict d) = baseRow d := by
    unfold create_csv_data
    rw [hbody]
  exact ⟨hrow, by rw [hrow, length_baseRow]⟩

/-- Witness for C10 at a record whose `sectionwise_marks` is the string
sentinel. -/
theorem C10_nonlist_sections_base_row_witness :
    create_csv_data (.dict [("sectionwise_marks", NA), ("rrn", .str "R9")]) =
      baseRow [("sectionwise_marks", NA), ("rrn", .str "R9")] ∧
      (create_csv_data (.dict [("sectionwise_marks", NA), ("rrn", .str "R9")])).length
        = 9 :=
  C10_nonlist_sections_base_row [("sectionwise_marks", NA), ("rrn", .str "R9")]
    (by decide)

/-- C8: `clean_identifier` (`CSVFormatter.clean_column_name`) maps
`"Math (Advanced)!!"` to `"Math_Advanced"` and the empty string to
`"Unknown_Field"`, and in general every result is non-empty, consists of
word characters only, carries no doubled underscore and no leading or
trailing underscore (the placeholder being substituted whenever the
result would be empty). -/
theorem C8_clean_identifier :
    clean_column_name "Math (Advanced)!!" = "Math_Advanced" ∧
    clean_column_name "" = "Unknown_Field" ∧
    ∀ s : String, isCleanName (clean_column_name s) = true :=
  ⟨rfl, rfl, fun s => isCleanName_pipeline s.data⟩

/-- C9: `validate_marks` accepts `"85/100"` and rejects the sentinels;
in general it accepts exactly the trimmed strings matching an integer, a
fraction or a decimal; `clean_numeric_value` extracts `"85"` from
`"scored 85 pts"` and yields `"0"` when no digit occurs. -/
theorem C9_validate_and_numeric :
    validate_marks "85/100" = true ∧
    validate_marks "N/A" = false ∧
    validate_marks "Not Available" = false ∧
    validate_marks "" = false ∧
    (∀ s : String, validate_marks s = true ↔
      (matchesInt (pyStrip s).data || matchesSep '/' (pyStrip s).data ||
        matchesSep '.' (pyStrip s).data) = true) ∧
    clean_numeric_value "scored 85 pts" = "85" ∧
    (∀ s : String, s.data.all (fun c => !c.isDigit) = true →
      clean_numeric_value s = "0") := by
  refine ⟨rfl, rfl, rfl, rfl, ?_, rfl, ?_⟩
  · intro s
    unfold validate_marks
    by_cases hc : (s = "" ∨ s ∈ ["Not Available", "N/A", ""])
    · have hcb : (decide (s = "") || decide (s ∈ ["Not Available", "N/A", ""])) = true := by
        rcases hc with h | h <;> simp [h]
      rw [if_pos hcb]
      simp only [Bool.false_eq_true, false_iff]
      intro h
      rcases hc with rfl | h2
      · exact absurd h (by decide)
      · simp only [List.mem_cons, List.not_mem_nil, or_false] at h2
        rcases h2 with rfl | rfl | rfl
        · exact absurd h (by decide)
        · exact absurd h (by decide)
        · exact absurd h (by decide)
    · have hcb : (decide (s = "") || decide (s ∈ ["Not Available", "N/A", ""])) = false := by
        rcases not_or.mp hc with ⟨h1, h2⟩
        simp [h1, h2]
      rw [if_neg (by rw [hcb]; exact Bool.false_ne_true)]
  · intro s h
    unfold clean_numeric_value
    by_cases hs : s = ""
    · rw [if_pos hs]
    · rw [if_neg hs]
      have hfn : firstNumber s.data = Option.none :=
        firstNumber_eq_none fun c hc => by simpa using List.all_eq_true.mp h c hc
      rw [hfn]


/-- Witness for C9 applying the general clauses at concrete inputs. -/
theorem C9_validate_and_numeric_witness :
    validate_marks "85" = true ∧ clean_numeric_value "no digits here" = "0" :=
  ⟨(C9_validate_and_numeric.2.2.2.2.1 "85").mpr (by decide),
   C9_validate_and_numeric.2.2.2.2.2.2 "no digits here" (by decide)⟩

end Marksheet
